import Mathlib

/-!
Verification of the SpotBugs analyzer-result converter
(`codechecker_report_converter/analyzers/spotbugs/analyzer_result.py`).

The converter is embedded shallowly: XML elements become an inductive tree,
the filesystem becomes an explicit read-only structure, Python exceptions
become an `Except` layer, and the converter instance state (the `File`
interning cache and the emitted log warnings) is threaded explicitly.
-/

namespace Spotbugs

/-- The Python exceptions that the converter code can raise. -/
inductive PyErr where
  | attributeError
  | valueError
  | typeError
deriving DecidableEq, Repr

/-- Modelled from the spec: the `File` record of the normalized report model
(module `codechecker_report_converter.report`, not among the sources); the
spec says a `File` carries an absolute path and is interned per converter
run. -/
structure File where
  path : String
deriving DecidableEq, Repr

/-- Modelled from the spec: `BugPathEvent` of the normalized report model —
message, file, line, column: one step in the explanatory trail. -/
structure BugPathEvent where
  message : Option String
  file : File
  line : Int
  column : Int
deriving DecidableEq, Repr

/-- Modelled from the spec: `Report` of the normalized report model — file,
line, column, message, checker identifier, optional dedup hash and the
ordered trail of `BugPathEvent`s. -/
structure Report where
  file : File
  line : Int
  column : Int
  message : Option String
  checker_name : Option String
  report_hash : Option String
  bug_path_events : List BugPathEvent
deriving DecidableEq, Repr

/-- An XML element as `xml.etree.ElementTree` exposes it: tag, attribute
dictionary, text content (`None` when the element has no text) and the list
of direct children. -/
inductive XElem where
  | mk (tag : String) (attribs : List (String × String)) (text : Option String)
      (children : List XElem)

/-- The tag of an element. -/
def XElem.tag : XElem → String
  | .mk t _ _ _ => t

/-- The attribute dictionary of an element (`element.attrib`). -/
def XElem.attribs : XElem → List (String × String)
  | .mk _ a _ _ => a

/-- The text content of an element (`element.text`). -/
def XElem.text : XElem → Option String
  | .mk _ _ tx _ => tx

/-- The direct children of an element (`list(element)`). -/
def XElem.children : XElem → List XElem
  | .mk _ _ _ cs => cs

/-- Python `element.attrib.get(key)`: the value of an attribute, or `None`. -/
def XElem.attribGet (el : XElem) (key : String) : Option String :=
  (el.attribs.find? (fun p => p.1 == key)).map (fun p => p.2)

/-- Python `element.find(tag)`: the first direct child with the given tag. -/
def XElem.find (el : XElem) (tg : String) : Option XElem :=
  el.children.find? (fun c => c.tag == tg)

/-- Python `element.findall(tag)`: all direct children with the given tag, in
document order. -/
def XElem.findall (el : XElem) (tg : String) : List XElem :=
  el.children.filter (fun c => c.tag == tg)

/-- The read-only filesystem the converter probes: which paths are existing
directories and which are existing files. -/
structure FileSystem where
  dirs : List String
  files : List String
deriving DecidableEq, Repr

/-- Python `os.path.isdir`. -/
def FileSystem.isDir (fs : FileSystem) (p : String) : Bool :=
  fs.dirs.contains p

/-- Python `os.path.isfile`. -/
def FileSystem.isFile (fs : FileSystem) (p : String) : Bool :=
  fs.files.contains p

/-- Python `os.path.exists`: the path is an existing directory or file. -/
def FileSystem.pathExists (fs : FileSystem) (p : String) : Bool :=
  fs.isDir p || fs.isFile p

/-- Whether one string starts with another (computable by the kernel). -/
def strStartsWith (s pre : String) : Bool :=
  pre.toList.isPrefixOf s.toList

/-- Whether one string ends with another (computable by the kernel). -/
def strEndsWith (s suf : String) : Bool :=
  suf.toList.reverse.isPrefixOf s.toList.reverse

/-- Python `os.path.join(a, b)` for POSIX paths: an absolute `b` replaces `a`;
otherwise the parts are joined, inserting a separator unless `a` is empty or
already ends in one. -/
def osPathJoin (a b : String) : String :=
  if strStartsWith b "/" then b
  else if a = "" then b
  else if strEndsWith a "/" then a ++ b
  else a ++ "/" ++ b

/-- Python `os.path.dirname` for POSIX paths: everything up to the last separator,
with trailing separators stripped unless the result is all separators. -/
def osPathDirname (p : String) : String :=
  let r := p.toList.reverse
  let r1 := r.dropWhile (fun c => c ≠ '/')
  if r1.isEmpty then ""
  else if r1.all (fun c => c = '/') then String.mk r1.reverse
  else String.mk ((r1.dropWhile (fun c => c = '/')).reverse)

/-- The value of a digit string, `none` when some character is not a
decimal digit. -/
def digitsVal : List Char → Nat → Option Nat
  | [], acc => some acc
  | c :: rest, acc =>
    if c.isDigit then digitsVal rest (acc * 10 + (c.toNat - 48)) else none

/-- The value of a non-empty digit string. -/
def digitsToNat : List Char → Option Nat
  | [] => none
  | cs => digitsVal cs 0

/-- Python `str.strip()` as the character list with surrounding whitespace
dropped. -/
def pyStrip (s : String) : List Char :=
  ((s.toList.dropWhile Char.isWhitespace).reverse.dropWhile
    Char.isWhitespace).reverse

/-- Python `int(s)` on a string: surrounding whitespace is stripped, an
optional sign precedes a non-empty digit run; anything else raises
`ValueError` (modelled as `none`). -/
def pyInt (s : String) : Option Int :=
  match pyStrip s with
  | '-' :: rest => (digitsToNat rest).map (fun n => -(n : Int))
  | '+' :: rest => (digitsToNat rest).map (fun n => (n : Int))
  | cs => (digitsToNat cs).map (fun n => (n : Int))

/-- The mutable converter-instance state that the code threads implicitly:
the `File` interning cache (`self.__file_cache`) and the log warnings
emitted so far. -/
structure ConvState where
  fileCache : List (String × File)
  warnings : List String
deriving DecidableEq, Repr

/-- The state of a converter fresh out of `__init__`. -/
def initState : ConvState :=
  { fileCache := [], warnings := [] }

/-- Append one warning to the log. -/
def addWarning (st : ConvState) (msg : String) : ConvState :=
  { st with warnings := st.warnings ++ [msg] }

/-- How Python `"%s" % x` prints an optional string: `None` becomes the
literal text `None`. -/
def pyShowOpt : Option String → String
  | none => "None"
  | some s => s

/-- Modelled from the spec: `get_or_create_file` of the normalized report
model — look the path up in the interning cache, creating and recording a
new `File` on a miss. -/
def get_or_create_file (path : String) (cache : List (String × File)) :
    File × List (String × File) :=
  match cache.find? (fun p => p.1 == path) with
  | some p => (p.2, cache)
  | none => (⟨path⟩, cache ++ [(path, (⟨path⟩ : File))])

/-- The loop of `__get_abs_path`: try each project path in order and return
the first join that exists. -/
def find_in_roots (fs : FileSystem) : List String → String → Option String
  | [], _ => none
  | root :: rest, sp =>
    let full := osPathJoin root sp
    if fs.pathExists full then some full else find_in_roots fs rest sp

/-- Source `AnalyzerResult.__get_abs_path`: return the source path itself when it
exists, otherwise the first project-path join that exists, otherwise log a
warning and return `None`. -/
def get_abs_path (fs : FileSystem) (pp : List String) (sp : String)
    (st : ConvState) : Option String × ConvState :=
  if fs.pathExists sp then (some sp, st)
  else
    match find_in_roots fs pp sp with
    | some full => (some full, st)
    | none => (none, addWarning st ("No source file found: " ++ sp))

/-- Source `AnalyzerResult.__get_source_path`: `None` when there is no SourceLine
element; a warning and `None` when it has no `sourcepath` attribute;
otherwise the resolved absolute path. -/
def get_source_path (fs : FileSystem) (pp : List String) (sl : Option XElem)
    (st : ConvState) : Option String × ConvState :=
  match sl with
  | none => (none, st)
  | some el =>
    match el.attribGet "sourcepath" with
    | none =>
      (none, addWarning st ("No source path attribute found for class: " ++
        pyShowOpt (el.attribGet "classname")))
    | some spa => get_abs_path fs pp spa st

/-- The tags of the project-metadata children recognized as candidate
roots. -/
def recognizedTags : List String :=
  ["Jar", "AuxClasspathEntry", "SrcDir"]

/-- The loop of `__get_project_paths` over the children of the Project
element.  A recognized child with no text raises `TypeError` inside
`os.path.isdir(None)`. -/
def project_paths_loop (fs : FileSystem) : List XElem → Except PyErr (List String)
  | [] => .ok []
  | el :: rest =>
    if recognizedTags.contains el.tag then
      match el.text with
      | none => .error .typeError
      | some t =>
        if fs.isDir t then (project_paths_loop fs rest).map (fun ps => t :: ps)
        else if fs.isFile t then
          (project_paths_loop fs rest).map (fun ps => osPathDirname t :: ps)
        else project_paths_loop fs rest
    else project_paths_loop fs rest

/-- Source `AnalyzerResult.__get_project_paths`: iterating a missing Project
element raises `TypeError`. -/
def get_project_paths (fs : FileSystem) (root : XElem) :
    Except PyErr (List String) :=
  match root.find "Project" with
  | none => .error .typeError
  | some proj => project_paths_loop fs proj.children

/-- Source `AnalyzerResult.__event_from_class`: reading `.text` of a missing
Message child raises `AttributeError`; an unresolved source path drops the
event; a non-numeric `start` attribute raises `ValueError` in `int`. -/
def event_from_class (fs : FileSystem) (pp : List String) (element : XElem)
    (st : ConvState) : Except PyErr (Option BugPathEvent × ConvState) :=
  match element.find "Message" with
  | none => .error .attributeError
  | some msgEl =>
    let message := msgEl.text
    match element.find "SourceLine" with
    | none => .ok (none, st)
    | some sl =>
      match get_source_path fs pp (some sl) st with
      | (none, st1) => .ok (none, st1)
      | (some sp, st1) =>
        if sp = "" then .ok (none, st1)
        else
          match sl.attribGet "start" with
          | none =>
            let (file, cache) := get_or_create_file sp st1.fileCache
            .ok (some ⟨message, file, 0, 0⟩, { st1 with fileCache := cache })
          | some s =>
            match pyInt s with
            | none => .error .valueError
            | some n =>
              let (file, cache) := get_or_create_file sp st1.fileCache
              .ok (some ⟨message, file, n, 0⟩, { st1 with fileCache := cache })

/-- Source `AnalyzerResult.__event_from_method`: its body is the same, character
for character, as `__event_from_class`. -/
def event_from_method (fs : FileSystem) (pp : List String) (element : XElem)
    (st : ConvState) : Except PyErr (Option BugPathEvent × ConvState) :=
  match element.find "Message" with
  | none => .error .attributeError
  | some msgEl =>
    let message := msgEl.text
    match element.find "SourceLine" with
    | none => .ok (none, st)
    | some sl =>
      match get_source_path fs pp (some sl) st with
      | (none, st1) => .ok (none, st1)
      | (some sp, st1) =>
        if sp = "" then .ok (none, st1)
        else
          match sl.attribGet "start" with
          | none =>
            let (file, cache) := get_or_create_file sp st1.fileCache
            .ok (some ⟨message, file, 0, 0⟩, { st1 with fileCache := cache })
          | some s =>
            match pyInt s with
            | none => .error .valueError
            | some n =>
              let (file, cache) := get_or_create_file sp st1.fileCache
              .ok (some ⟨message, file, n, 0⟩, { st1 with fileCache := cache })

/-- The event-collection loop of `__parse_bug` over the direct children of a
BugInstance: Class and Method children yield events, resolved events are
accumulated in encounter order, children of other tags are skipped. -/
def collect_events (fs : FileSystem) (pp : List String) :
    List XElem → ConvState → Except PyErr (List BugPathEvent × ConvState)
  | [], st => .ok ([], st)
  | el :: rest, st =>
    let step :=
      if el.tag == "Class" then event_from_class fs pp el st
      else if el.tag == "Method" then event_from_method fs pp el st
      else .ok (none, st)
    match step with
    | .error e => .error e
    | .ok (ev, st1) =>
      match collect_events fs pp rest st1 with
      | .error e => .error e
      | .ok (evs, st2) =>
        .ok ((match ev with | some e => e :: evs | none => evs), st2)

/-- Source `AnalyzerResult.__parse_bug`: reading `.text` of a missing LongMessage
child raises `AttributeError`; an unresolved primary source path drops the
whole entry; when the primary SourceLine has no `start` attribute the line
falls back to the last collected event with a positive line, else 0; the
trail always ends with an event duplicating the report's own message and
location. -/
def parse_bug (fs : FileSystem) (pp : List String) (bug : XElem)
    (st : ConvState) : Except PyErr (Option Report × ConvState) :=
  let report_hash := bug.attribGet "instanceHash"
  let checker_name := bug.attribGet "type"
  match bug.find "LongMessage" with
  | none => .error .attributeError
  | some lmEl =>
    let long_message := lmEl.text
    match bug.find "SourceLine" with
    | none => .ok (none, st)
    | some sl =>
      match get_source_path fs pp (some sl) st with
      | (none, st1) => .ok (none, st1)
      | (some sp, st1) =>
        if sp = "" then .ok (none, st1)
        else
          let lineAttr := sl.attribGet "start"
          match collect_events fs pp bug.children st1 with
          | .error e => .error e
          | .ok (events, st2) =>
            let (file, cache) := get_or_create_file sp st2.fileCache
            let st3 := { st2 with fileCache := cache }
            match lineAttr with
            | some s =>
              match pyInt s with
              | none => .error .valueError
              | some n =>
                .ok (some
                  { file := file, line := n, column := 0,
                    message := long_message, checker_name := checker_name,
                    report_hash := report_hash,
                    bug_path_events :=
                      events ++ [⟨long_message, file, n, 0⟩] }, st3)
            | none =>
              let n := (((events.reverse.find?
                (fun e => decide (0 < e.line))).map
                  (fun e => e.line)).getD 0)
              .ok (some
                { file := file, line := n, column := 0,
                  message := long_message, checker_name := checker_name,
                  report_hash := report_hash,
                  bug_path_events :=
                    events ++ [⟨long_message, file, n, 0⟩] }, st3)

/-- The report-collection loop of `get_reports` over the BugInstance
children: a parsed report is appended (a `Report` object is always truthy),
a dropped entry contributes nothing. -/
def parse_bugs (fs : FileSystem) (pp : List String) :
    List XElem → ConvState → Except PyErr (List Report × ConvState)
  | [], st => .ok ([], st)
  | bug :: rest, st =>
    match parse_bug fs pp bug st with
    | .error e => .error e
    | .ok (rep, st1) =>
      match parse_bugs fs pp rest st1 with
      | .error e => .error e
      | .ok (reps, st2) =>
        .ok ((match rep with | some r => r :: reps | none => reps), st2)

/-- Source `AnalyzerResult.get_reports`: `none` stands for an input file that
`__parse_analyzer_result` could not open or parse (it logs and yields no
root), in which case the empty report list is returned; otherwise the
project paths are gathered and every BugInstance child is parsed. -/
def get_reports (fs : FileSystem) (root : Option XElem) (st : ConvState) :
    Except PyErr (List Report × ConvState) :=
  match root with
  | none => .ok ([], st)
  | some r =>
    match get_project_paths fs r with
    | .error e => .error e
    | .ok pp => parse_bugs fs pp (r.findall "BugInstance") st

/-- Holds (`true`) exactly on a successful (non-raising) converter run. -/
def isOkRun (x : Except PyErr (List Report × ConvState)) : Bool :=
  match x with
  | .ok _ => true
  | .error _ => false

/-- The report list of a successful run, `none` on a raised exception. -/
def okReports (x : Except PyErr (List Report × ConvState)) : Option (List Report) :=
  match x with
  | .ok (reps, _) => some reps
  | .error _ => none

/-- The resolution value of `__get_abs_path`, which does not depend on the
converter state: the path itself when it exists, else the first matching
project-path join. -/
def resolve_val (fs : FileSystem) (pp : List String) (sp : String) :
    Option String :=
  if fs.pathExists sp then some sp else find_in_roots fs pp sp

/-- The resolution value of `__get_source_path` on a present SourceLine
element, which does not depend on the converter state. -/
def source_path_of (fs : FileSystem) (pp : List String) (sl : XElem) :
    Option String :=
  match sl.attribGet "sourcepath" with
  | none => none
  | some spa => resolve_val fs pp spa

/-- Whether a BugInstance's primary source path resolves to a truthy path,
meaning `__parse_bug` gets past its early return. -/
def primary_resolves (fs : FileSystem) (pp : List String) (bug : XElem) : Bool :=
  match bug.find "SourceLine" with
  | none => false
  | some sl =>
    match source_path_of fs pp sl with
    | none => false
    | some sp => !(sp == "")

/-- Source-path resolution as the spec's section 4.3 words it: the path
itself when it exists as given, otherwise the first candidate root, in list
order, whose join with the path exists, otherwise unresolved. -/
def source_path_resolution_spec (fs : FileSystem) (pp : List String)
    (sp : String) : Option String :=
  if fs.pathExists sp then some sp
  else
    match pp.find? (fun root => fs.pathExists (osPathJoin root sp)) with
    | some root => some (osPathJoin root sp)
    | none => none

/-- Candidate roots as the spec's sections 4.2 and 8 word them: one entry,
in document order, per project-metadata child with a recognized tag whose
text names an existing directory (the directory itself) or an existing file
(its containing directory); every other child contributes nothing. -/
def candidate_roots_spec (fs : FileSystem) (proj : XElem) : List String :=
  proj.children.filterMap (fun el =>
    if recognizedTags.contains el.tag then
      match el.text with
      | none => none
      | some t =>
        if fs.isDir t then some t
        else if fs.isFile t then some (osPathDirname t)
        else none
    else none)

/-- Whether every recognized-tag child of the project-metadata element has
text content (a recognized child with no text makes the code raise
`TypeError`). -/
def project_texts_ok (proj : XElem) : Bool :=
  proj.children.all (fun el =>
    !(recognizedTags.contains el.tag) || el.text.isSome)

/-- The line of the last event in the list with a positive line, else 0. -/
def last_positive_line : List BugPathEvent → Int
  | [] => 0
  | e :: rest =>
    let r := last_positive_line rest
    if 0 < r then r else if 0 < e.line then e.line else 0

/-- The greatest positive line among the events, else 0. -/
def greatest_positive_line : List BugPathEvent → Int
  | [] => 0
  | e :: rest =>
    let r := greatest_positive_line rest
    if 0 < e.line then max e.line r else r

/-- Whether a `start` attribute of the given optional SourceLine element, if
present, is numeric (so Python `int` does not raise). -/
def start_ok (sl : Option XElem) : Bool :=
  match sl with
  | none => true
  | some el =>
    match el.attribGet "start" with
    | none => true
    | some s => (pyInt s).isSome

/-- Whether a direct child of a BugInstance cannot make the event walk
raise: a Class or Method child must have a Message child and a numeric
`start` attribute when one is present. -/
def wf_child (el : XElem) : Bool :=
  if el.tag == "Class" || el.tag == "Method" then
    (el.find "Message").isSome && start_ok (el.find "SourceLine")
  else true

/-- Whether a BugInstance cannot make `__parse_bug` raise: a LongMessage
child is present, the primary `start` attribute is numeric when present, and
every child is well formed. -/
def wf_bug (bug : XElem) : Bool :=
  (bug.find "LongMessage").isSome && start_ok (bug.find "SourceLine") &&
    bug.children.all wf_child

/-- Whether a document cannot make `get_reports` raise: the Project section
is present, its recognized children carry text, and every BugInstance is
well formed. -/
def wf_doc (root : XElem) : Bool :=
  (match root.find "Project" with
   | none => false
   | some proj => project_texts_ok proj) &&
    (root.findall "BugInstance").all wf_bug

/-! Concrete example inputs, used to evaluate the converter on closed
documents.  `fsEx` declares one source directory and two existing files. -/

/-- Example filesystem: `/repo/src` is a directory, `/repo/src/pkg/Foo.src`
and `/f.c` are files. -/
def fsEx : FileSystem :=
  ⟨["/repo/src"], ["/repo/src/pkg/Foo.src", "/f.c"]⟩

/-- The interned file of the worked example. -/
def fileEx : File := ⟨"/repo/src/pkg/Foo.src"⟩

/-- The interned file used by the smaller examples. -/
def fileF : File := ⟨"/f.c"⟩

/-- Worked example (spec section 8): the defect entry's LongMessage. -/
def lmEx : XElem := .mk "LongMessage" [] (some "Null deref") []

/-- Worked example: the primary SourceLine. -/
def slEx : XElem :=
  .mk "SourceLine" [("sourcepath", "pkg/Foo.src"), ("start", "42")] none []

/-- Worked example: the nested Method child. -/
def methodEx : XElem :=
  .mk "Method" [] none
    [.mk "Message" [] (some "in method bar") [],
     .mk "SourceLine" [("sourcepath", "pkg/Foo.src"), ("start", "40")] none []]

/-- Worked example: the BugInstance. -/
def bugEx : XElem :=
  .mk "BugInstance" [("instanceHash", "H1"), ("type", "CHK1")] none
    [lmEx, methodEx, slEx]

/-- Worked example: the document, with a Project section declaring the
source directory. -/
def docEx : XElem :=
  .mk "BugCollection" [] none
    [.mk "Project" [] none [.mk "SrcDir" [] (some "/repo/src") []], bugEx]

/-- Worked example: the nested event at line 40. -/
def ev40 : BugPathEvent := ⟨some "in method bar", fileEx, 40, 0⟩

/-- Worked example: the expected output report. -/
def repEx : Report :=
  { file := fileEx, line := 42, column := 0, message := some "Null deref",
    checker_name := some "CHK1", report_hash := some "H1",
    bug_path_events := [ev40, ⟨some "Null deref", fileEx, 42, 0⟩] }

/-- Worked example: the converter state after the run. -/
def stEx : ConvState := ⟨[("/repo/src/pkg/Foo.src", fileEx)], []⟩

/-- The converter state after a run that interned only `/f.c`. -/
def stF : ConvState := ⟨[("/f.c", fileF)], []⟩

/-- A document with no Project section at all. -/
def docNoProject : XElem := .mk "BugCollection" [] none []

/-- A BugInstance with no children, in particular no LongMessage. -/
def bugNoLM : XElem := .mk "BugInstance" [] none []

/-- A document whose single BugInstance has no LongMessage child. -/
def docNoLM : XElem :=
  .mk "BugCollection" [] none [.mk "Project" [] none [], bugNoLM]

/-- A primary SourceLine with a resolvable source path but no `start`
attribute. -/
def slNoStart : XElem := .mk "SourceLine" [("sourcepath", "/f.c")] none []

/-- A BugInstance whose primary SourceLine has no `start` attribute and
whose Method child carries line 7. -/
def bugW3 : XElem :=
  .mk "BugInstance" [] none
    [.mk "LongMessage" [] (some "L") [],
     .mk "Method" [] none
       [.mk "Message" [] (some "m") [],
        .mk "SourceLine" [("sourcepath", "/f.c"), ("start", "7")] none []],
     slNoStart]

/-- The report parsed out of `bugW3`. -/
def repW3 : Report :=
  { file := fileF, line := 7, column := 0, message := some "L",
    checker_name := none, report_hash := none,
    bug_path_events :=
      [⟨some "m", fileF, 7, 0⟩, ⟨some "L", fileF, 7, 0⟩] }

/-- A BugInstance whose primary SourceLine has no `start` attribute and
whose Method children carry lines 50 and then 10: the last positive line
(10) and the greatest positive line (50) differ. -/
def bugC4 : XElem :=
  .mk "BugInstance" [] none
    [.mk "LongMessage" [] (some "L4") [],
     .mk "Method" [] none
       [.mk "Message" [] (some "a") [],
        .mk "SourceLine" [("sourcepath", "/f.c"), ("start", "50")] none []],
     .mk "Method" [] none
       [.mk "Message" [] (some "b") [],
        .mk "SourceLine" [("sourcepath", "/f.c"), ("start", "10")] none []],
     slNoStart]

/-- The document wrapping `bugC4`. -/
def docC4 : XElem :=
  .mk "BugCollection" [] none [.mk "Project" [] none [], bugC4]

/-- The report parsed out of `bugC4`: its line is 10, the last-walked
positive event line, not the greatest one (50). -/
def repC4 : Report :=
  { file := fileF, line := 10, column := 0, message := some "L4",
    checker_name := none, report_hash := none,
    bug_path_events :=
      [⟨some "a", fileF, 50, 0⟩, ⟨some "b", fileF, 10, 0⟩,
       ⟨some "L4", fileF, 10, 0⟩] }

/-- A Project section exercising all candidate-root cases: a Jar naming an
existing file, a SrcDir naming an existing directory, an unrecognized tag
with directory-shaped text, and a recognized tag naming nothing. -/
def projW6 : XElem :=
  .mk "Project" [] none
    [.mk "Jar" [] (some "/repo/src/pkg/Foo.src") [],
     .mk "SrcDir" [] (some "/repo/src") [],
     .mk "Other" [] (some "/repo/src") [],
     .mk "AuxClasspathEntry" [] (some "/nope") []]

/-- The document wrapping `projW6`. -/
def docW6 : XElem := .mk "BugCollection" [] none [projW6]

/-- A Message child shared by the class/method equivalence example. -/
def msgW9 : XElem := .mk "Message" [] (some "w") []

/-- A SourceLine shared by the class/method equivalence example. -/
def slW9 : XElem :=
  .mk "SourceLine" [("sourcepath", "/f.c"), ("start", "3")] none []

/-- A Class element with the shared message and source line. -/
def clsW9 : XElem := .mk "Class" [] none [msgW9, slW9]

/-- A Method element with the shared message and source line. -/
def mthW9 : XElem := .mk "Method" [] none [msgW9, slW9]

/-! Helper lemmas. -/

theorem find_in_roots_eq (fs : FileSystem) (pp : List String) (sp : String) :
    find_in_roots fs pp sp =
      (pp.find? (fun root => fs.pathExists (osPathJoin root sp))).map
        (fun root => osPathJoin root sp) := by
  induction pp with
  | nil => rfl
  | cons r rest ih =>
    unfold find_in_roots
    by_cases h : fs.pathExists (osPathJoin r sp) <;>
      simp [List.find?_cons, h, ih]

theorem get_abs_path_eq (fs : FileSystem) (pp : List String) (sp : String)
    (st : ConvState) :
    get_abs_path fs pp sp st =
      match resolve_val fs pp sp with
      | some p => (some p, st)
      | none => (none, addWarning st ("No source file found: " ++ sp)) := by
  unfold get_abs_path resolve_val
  by_cases h : fs.pathExists sp
  · simp [h]
  · cases hf : find_in_roots fs pp sp <;> simp [h, hf]

theorem get_source_path_fst (fs : FileSystem) (pp : List String) (sl : XElem)
    (st : ConvState) :
    (get_source_path fs pp (some sl) st).1 = source_path_of fs pp sl := by
  cases h : sl.attribGet "sourcepath" with
  | none => simp [get_source_path, source_path_of, h]
  | some spa =>
    simp only [get_source_path, source_path_of, h, get_abs_path_eq]
    cases hr : resolve_val fs pp spa <;> simp [hr]

theorem last_positive_line_eq (evs : List BugPathEvent) :
    last_positive_line evs =
      ((evs.reverse.find? (fun e => decide (0 < e.line))).map
        (fun e => e.line)).getD 0 := by
  induction evs with
  | nil => rfl
  | cons e rest ih =>
    unfold last_positive_line
    rw [List.reverse_cons, List.find?_append]
    cases hf : rest.reverse.find? (fun e => decide (0 < e.line)) with
    | some x =>
      have hx : 0 < x.line := by
        have := List.find?_some hf
        simpa using this
      simp [ih, hf, hx]
    | none =>
      by_cases he : 0 < e.line <;> simp [ih, hf, List.find?_cons, he]

theorem primary_resolves_sl (fs : FileSystem) (pp : List String) (bug : XElem)
    (h : primary_resolves fs pp bug = true) :
    (bug.find "SourceLine").isSome = true := by
  unfold primary_resolves at h
  cases hf : bug.find "SourceLine" with
  | none => rw [hf] at h; simp at h
  | some sl => simp

theorem parse_bug_isSome (fs : FileSystem) (pp : List String) (bug : XElem)
    (st : ConvState) (rep : Option Report) (stf : ConvState)
    (h : parse_bug fs pp bug st = .ok (rep, stf)) :
    rep.isSome = primary_resolves fs pp bug := by
  unfold parse_bug at h
  simp only [] at h
  cases hlm : bug.find "LongMessage" with
  | none => rw [hlm] at h; simp at h
  | some lmEl =>
    rw [hlm] at h
    simp only [] at h
    cases hsl : bug.find "SourceLine" with
    | none =>
      rw [hsl] at h
      simp only [Except.ok.injEq, Prod.mk.injEq] at h
      simp [primary_resolves, hsl, ← h.1]
    | some sl =>
      rw [hsl] at h
      simp only [] at h
      have hfst := get_source_path_fst fs pp sl st
      cases hgs : get_source_path fs pp (some sl) st with
      | mk spo st1 =>
        rw [hgs] at h hfst
        simp only at hfst
        cases spo with
        | none =>
          simp only [] at h
          simp only [Except.ok.injEq, Prod.mk.injEq] at h
          simp [primary_resolves, hsl, ← hfst, ← h.1]
        | some sp =>
          simp only [] at h
          by_cases hemp : sp = ""
          · rw [if_pos hemp] at h
            simp only [Except.ok.injEq, Prod.mk.injEq] at h
            simp [primary_resolves, hsl, ← hfst, hemp, ← h.1]
          · simp only [if_neg hemp] at h
            cases hce : collect_events fs pp bug.children st1 with
            | error e => rw [hce] at h; simp at h
            | ok out =>
              rw [hce] at h
              cases out with
              | mk events st2 =>
                simp only [] at h
                cases hstart : sl.attribGet "start" with
                | some s =>
                  rw [hstart] at h
                  simp only [] at h
                  cases hint : pyInt s with
                  | none => rw [hint] at h; simp at h
                  | some n =>
                    rw [hint] at h
                    simp only [Except.ok.injEq, Prod.mk.injEq] at h
                    simp [primary_resolves, hsl, ← hfst, hemp, ← h.1]
                | none =>
                  rw [hstart] at h
                  simp only [Except.ok.injEq, Prod.mk.injEq] at h
                  simp [primary_resolves, hsl, ← hfst, hemp, ← h.1]

theorem parse_bug_lm (fs : FileSystem) (pp : List String) (bug : XElem)
    (st : ConvState) (rep : Option Report) (stf : ConvState)
    (h : parse_bug fs pp bug st = .ok (rep, stf)) :
    (bug.find "LongMessage").isSome = true := by
  unfold parse_bug at h
  simp only [] at h
  cases hlm : bug.find "LongMessage" with
  | none => rw [hlm] at h; simp at h
  | some lmEl => simp

theorem parse_bug_ok_some (fs : FileSystem) (pp : List String) (bug : XElem)
    (st : ConvState) (r : Report) (stf : ConvState)
    (h : parse_bug fs pp bug st = .ok (some r, stf)) :
    ∃ lmEl sl sp st1 events st2,
      bug.find "LongMessage" = some lmEl ∧
      bug.find "SourceLine" = some sl ∧
      get_source_path fs pp (some sl) st = (some sp, st1) ∧
      ¬ sp = "" ∧
      collect_events fs pp bug.children st1 = .ok (events, st2) ∧
      r.message = lmEl.text ∧
      r.checker_name = bug.attribGet "type" ∧
      r.report_hash = bug.attribGet "instanceHash" ∧
      r.column = 0 ∧
      r.file = (get_or_create_file sp st2.fileCache).1 ∧
      stf = { st2 with fileCache := (get_or_create_file sp st2.fileCache).2 } ∧
      r.bug_path_events = events ++ [⟨r.message, r.file, r.line, r.column⟩] ∧
      (sl.attribGet "start" = none →
        r.line = ((events.reverse.find? (fun e => decide (0 < e.line))).map
          (fun e => e.line)).getD 0) := by
  unfold parse_bug at h
  simp only [] at h
  cases hlm : bug.find "LongMessage" with
  | none => rw [hlm] at h; simp at h
  | some lmEl =>
    rw [hlm] at h
    simp only [] at h
    cases hsl : bug.find "SourceLine" with
    | none => rw [hsl] at h; simp at h
    | some sl =>
      rw [hsl] at h
      simp only [] at h
      cases hgs : get_source_path fs pp (some sl) st with
      | mk spo st1 =>
        rw [hgs] at h
        cases spo with
        | none => simp only [] at h; simp at h
        | some sp =>
          simp only [] at h
          by_cases hemp : sp = ""
          · rw [if_pos hemp] at h; simp at h
          · rw [if_neg hemp] at h
            cases hce : collect_events fs pp bug.children st1 with
            | error e => rw [hce] at h; simp at h
            | ok out =>
              rw [hce] at h
              cases out with
              | mk events st2 =>
                simp only [] at h
                cases hstart : sl.attribGet "start" with
                | some s =>
                  rw [hstart] at h
                  simp only [] at h
                  cases hint : pyInt s with
                  | none => rw [hint] at h; simp at h
                  | some n =>
                    rw [hint] at h
                    simp only [Except.ok.injEq, Prod.mk.injEq,
                      Option.some.injEq] at h
                    obtain ⟨hr, hst⟩ := h
                    subst hr
                    refine ⟨lmEl, sl, sp, st1, events, st2, rfl, rfl, hgs,
                      hemp, hce, rfl, rfl, rfl, rfl, rfl, hst.symm, rfl, ?_⟩
                    intro hcontra
                    rw [hstart] at hcontra
                    exact absurd hcontra (by simp)
                | none =>
                  rw [hstart] at h
                  simp only [Except.ok.injEq, Prod.mk.injEq,
                    Option.some.injEq] at h
                  obtain ⟨hr, hst⟩ := h
                  subst hr
                  exact ⟨lmEl, sl, sp, st1, events, st2, rfl, rfl, hgs,
                    hemp, hce, rfl, rfl, rfl, rfl, rfl, hst.symm, rfl,
                    fun _ => rfl⟩

theorem parse_bugs_spec (fs : FileSystem) (pp : List String) :
    ∀ (bugs : List XElem) (st : ConvState) (reports : List Report)
      (stf : ConvState),
      parse_bugs fs pp bugs st = .ok (reports, stf) →
      reports.length ≤ bugs.length ∧
      (reports.length = bugs.length ↔
        bugs.all (fun bug => primary_resolves fs pp bug) = true) ∧
      bugs.all (fun bug => (bug.find "LongMessage").isSome) = true := by
  intro bugs
  induction bugs with
  | nil =>
    intro st reports stf h
    unfold parse_bugs at h
    simp only [Except.ok.injEq, Prod.mk.injEq] at h
    simp [← h.1]
  | cons bug rest ih =>
    intro st reports stf h
    unfold parse_bugs at h
    cases hpb : parse_bug fs pp bug st with
    | error e => rw [hpb] at h; simp at h
    | ok out =>
      rw [hpb] at h
      cases out with
      | mk rep st1 =>
        simp only [] at h
        cases hpbs : parse_bugs fs pp rest st1 with
        | error e => rw [hpbs] at h; simp at h
        | ok out2 =>
          rw [hpbs] at h
          cases out2 with
          | mk reps st2 =>
            simp only [Except.ok.injEq, Prod.mk.injEq] at h
            obtain ⟨hr, hst⟩ := h
            obtain ⟨ih1, ih2, ih3⟩ := ih st1 reps st2 hpbs
            have hsome := parse_bug_isSome fs pp bug st rep st1 hpb
            have hlm := parse_bug_lm fs pp bug st rep st1 hpb
            cases rep with
            | some r =>
              simp only [] at hr
              subst hr
              refine ⟨?_, ?_, ?_⟩
              · simp only [List.length_cons]
                omega
              · simp only [List.length_cons, List.all_cons, ← hsome,
                  Option.isSome_some, Bool.true_and]
                rw [← ih2]
                omega
              · simp [List.all_cons, hlm, ih3]
            | none =>
              simp only [] at hr
              subst hr
              refine ⟨?_, ?_, ?_⟩
              · simp only [List.length_cons]
                omega
              · have hne : ¬ reps.length = rest.length + 1 := by omega
                simp only [List.length_cons, List.all_cons, ← hsome,
                  Option.isSome_none, Bool.false_and]
                constructor
                · intro hh; exact absurd hh hne
                · intro hh; simp at hh
              · simp [List.all_cons, hlm, ih3]

theorem project_paths_loop_spec (fs : FileSystem) :
    ∀ (children : List XElem),
      children.all (fun el =>
        !(recognizedTags.contains el.tag) || el.text.isSome) = true →
      project_paths_loop fs children = .ok (children.filterMap (fun el =>
        if recognizedTags.contains el.tag then
          match el.text with
          | none => none
          | some t =>
            if fs.isDir t then some t
            else if fs.isFile t then some (osPathDirname t)
            else none
        else none)) := by
  intro children
  induction children with
  | nil => intro _; rfl
  | cons el rest ih =>
    intro hall
    simp only [List.all_cons, Bool.and_eq_true] at hall
    unfold project_paths_loop
    rw [List.filterMap_cons]
    by_cases hrec : recognizedTags.contains el.tag
    · have hmem : el.tag ∈ recognizedTags := by simpa using hrec
      have h1 := hall.1
      rw [hrec] at h1
      simp only [Bool.not_true, Bool.false_or] at h1
      cases htx : el.text with
      | none => rw [htx] at h1; simp at h1
      | some t =>
        by_cases hd : fs.isDir t
        · simp [hmem, htx, hd, ih hall.2, Except.map]
        · by_cases hf : fs.isFile t
          · simp [hmem, htx, hd, hf, ih hall.2, Except.map]
          · simp [hmem, htx, hd, hf, ih hall.2, Except.map]
    · have hmem : el.tag ∉ recognizedTags := by simpa using hrec
      simp [hmem, ih hall.2]

theorem event_method_eq_class (fs : FileSystem) (pp : List String)
    (el : XElem) (st : ConvState) :
    event_from_method fs pp el st = event_from_class fs pp el st := rfl

theorem event_from_class_ok (fs : FileSystem) (pp : List String) (el : XElem)
    (st : ConvState) (hmsg : (el.find "Message").isSome = true)
    (hst : start_ok (el.find "SourceLine") = true) :
    ∃ out, event_from_class fs pp el st = .ok out := by
  unfold event_from_class
  cases hm : el.find "Message" with
  | none => rw [hm] at hmsg; simp at hmsg
  | some msgEl =>
    simp only []
    cases hsl : el.find "SourceLine" with
    | none => exact ⟨_, rfl⟩
    | some sl =>
      rw [hsl] at hst
      simp only []
      cases hgs : get_source_path fs pp (some sl) st with
      | mk spo st1 =>
        cases spo with
        | none => exact ⟨_, rfl⟩
        | some sp =>
          simp only []
          by_cases hemp : sp = ""
          · rw [if_pos hemp]
            exact ⟨_, rfl⟩
          · rw [if_neg hemp]
            unfold start_ok at hst
            simp only [] at hst
            cases hsa : sl.attribGet "start" with
            | none => exact ⟨_, rfl⟩
            | some s =>
              rw [hsa] at hst
              simp only [] at hst
              simp only []
              cases hpi : pyInt s with
              | none => rw [hpi] at hst; simp at hst
              | some n => exact ⟨_, rfl⟩

theorem collect_events_ok (fs : FileSystem) (pp : List String) :
    ∀ (children : List XElem) (st : ConvState),
      children.all wf_child = true →
      ∃ out, collect_events fs pp children st = .ok out := by
  intro children
  induction children with
  | nil => intro st _; exact ⟨_, rfl⟩
  | cons el rest ih =>
    intro st hall
    simp only [List.all_cons, Bool.and_eq_true] at hall
    unfold collect_events
    have hstep : ∃ out,
        (if el.tag == "Class" then event_from_class fs pp el st
         else if el.tag == "Method" then event_from_method fs pp el st
         else .ok (none, st)) = .ok out := by
      by_cases hc : el.tag == "Class"
      · rw [if_pos hc]
        have hwf := hall.1
        unfold wf_child at hwf
        rw [hc] at hwf
        simp only [Bool.true_or, if_pos, Bool.and_eq_true] at hwf
        exact event_from_class_ok fs pp el st hwf.1 hwf.2
      · rw [if_neg hc]
        by_cases hmth : el.tag == "Method"
        · rw [if_pos hmth, event_method_eq_class]
          have hwf := hall.1
          unfold wf_child at hwf
          rw [hmth] at hwf
          simp only [Bool.or_true, if_pos, Bool.and_eq_true] at hwf
          exact event_from_class_ok fs pp el st hwf.1 hwf.2
        · rw [if_neg hmth]
          exact ⟨_, rfl⟩
    obtain ⟨out, hout⟩ := hstep
    rw [hout]
    cases out with
    | mk ev st1 =>
      simp only []
      obtain ⟨out2, hout2⟩ := ih st1 hall.2
      rw [hout2]
      cases out2 with
      | mk evs st2 => exact ⟨_, rfl⟩

theorem parse_bug_ok_of_wf (fs : FileSystem) (pp : List String) (bug : XElem)
    (st : ConvState) (hwf : wf_bug bug = true) :
    ∃ out, parse_bug fs pp bug st = .ok out := by
  unfold wf_bug at hwf
  simp only [Bool.and_eq_true] at hwf
  obtain ⟨⟨hlm, hstart⟩, hch⟩ := hwf
  unfold parse_bug
  cases hm : bug.find "LongMessage" with
  | none => rw [hm] at hlm; simp at hlm
  | some lmEl =>
    simp only []
    cases hsl : bug.find "SourceLine" with
    | none => exact ⟨_, rfl⟩
    | some sl =>
      rw [hsl] at hstart
      simp only []
      cases hgs : get_source_path fs pp (some sl) st with
      | mk spo st1 =>
        cases spo with
        | none => exact ⟨_, rfl⟩
        | some sp =>
          simp only []
          by_cases hemp : sp = ""
          · rw [if_pos hemp]
            exact ⟨_, rfl⟩
          · rw [if_neg hemp]
            obtain ⟨out, hout⟩ := collect_events_ok fs pp bug.children st1 hch
            rw [hout]
            cases out with
            | mk events st2 =>
              simp only []
              unfold start_ok at hstart
              simp only [] at hstart
              cases hsa : sl.attribGet "start" with
              | none => exact ⟨_, rfl⟩
              | some s =>
                rw [hsa] at hstart
                simp only [] at hstart
                simp only []
                cases hpi : pyInt s with
                | none => rw [hpi] at hstart; simp at hstart
                | some n => exact ⟨_, rfl⟩

theorem parse_bugs_ok (fs : FileSystem) (pp : List String) :
    ∀ (bugs : List XElem) (st : ConvState),
      bugs.all wf_bug = true →
      ∃ out, parse_bugs fs pp bugs st = .ok out := by
  intro bugs
  induction bugs with
  | nil => intro st _; exact ⟨_, rfl⟩
  | cons bug rest ih =>
    intro st hall
    simp only [List.all_cons, Bool.and_eq_true] at hall
    unfold parse_bugs
    obtain ⟨out, hout⟩ := parse_bug_ok_of_wf fs pp bug st hall.1
    rw [hout]
    cases out with
    | mk rep st1 =>
      simp only []
      obtain ⟨out2, hout2⟩ := ih st1 hall.2
      rw [hout2]
      cases out2 with
      | mk reps st2 => exact ⟨_, rfl⟩

/-! Claim theorems. -/

/-- C5: source-path resolution conforms to the spec's algorithm — a path
that exists on the filesystem as given is returned unchanged; otherwise the
first candidate-root join (in candidate-root list order) that exists is
returned; otherwise a warning identifying the unresolved path is logged and
the unresolved result (`None`) is returned. -/
theorem get_abs_path_spec_conformance (fs : FileSystem) (pp : List String)
    (sp : String) (st : ConvState) :
    get_abs_path fs pp sp st =
      match source_path_resolution_spec fs pp sp with
      | some p => (some p, st)
      | none =>
        (none, { st with warnings := st.warnings ++
          ["No source file found: " ++ sp] }) := by
  rw [get_abs_path_eq]
  unfold source_path_resolution_spec resolve_val
  by_cases h : fs.pathExists sp
  · simp [h]
  · rw [find_in_roots_eq]
    cases hf : pp.find? (fun root => fs.pathExists (osPathJoin root sp)) <;>
      simp [h, hf, addWarning]

/-- C6: when the Project section exists and its recognized children carry
text, the candidate-root list contains exactly, in document order, one entry
per direct child with a tag in the fixed set whose text names an existing
directory (the directory itself) or an existing file (its containing
directory); children of any other tag contribute nothing. -/
theorem get_project_paths_eq_candidate_roots (fs : FileSystem) (root : XElem)
    (proj : XElem) (hproj : root.find "Project" = some proj)
    (htexts : project_texts_ok proj = true) :
    get_project_paths fs root = .ok (candidate_roots_spec fs proj) := by
  unfold get_project_paths
  rw [hproj]
  unfold project_texts_ok at htexts
  exact project_paths_loop_spec fs proj.children htexts

/-- Witness for C6: the mixed Project section of `projW6` yields exactly
the two spec-mandated roots. -/
theorem get_project_paths_eq_candidate_roots_witness :
    docW6.find "Project" = some projW6 ∧
    project_texts_ok projW6 = true ∧
    get_project_paths fsEx docW6 = .ok (candidate_roots_spec fsEx projW6) :=
  ⟨rfl, rfl,
    get_project_paths_eq_candidate_roots fsEx docW6 projW6 rfl rfl⟩

/-- C1 counterexample: a document with no project-metadata section makes
`get_reports` raise `TypeError` (iterating a missing Project element)
instead of degrading to fewer reports. -/
theorem get_reports_raises_without_project_section :
    get_reports fsEx (some docNoProject) initState = .error .typeError := rfl

/-- C1 (amended): the conversion entry point raises no exception provided
the document is well formed for the converter — its project-metadata section
exists and its recognized children carry text, every defect entry has a
long-message child, every nested Class/Method child has a Message child, and
every `start` attribute that is present is numeric.  Outside these
conditions an exception can escape `get_reports` (`TypeError` for a missing
project section, `AttributeError` for a missing long-message,
`ValueError` for a non-numeric starting line). -/
theorem get_reports_ok_of_wf_doc (fs : FileSystem) (root : XElem)
    (st : ConvState) (hwf : wf_doc root = true) :
    isOkRun (get_reports fs (some root) st) = true := by
  unfold wf_doc at hwf
  simp only [Bool.and_eq_true] at hwf
  obtain ⟨hproj, hbugs⟩ := hwf
  cases hp : root.find "Project" with
  | none => rw [hp] at hproj; simp at hproj
  | some proj =>
    rw [hp] at hproj
    simp only [] at hproj
    unfold project_texts_ok at hproj
    have hgp : get_project_paths fs root =
        .ok (proj.children.filterMap (fun el =>
          if recognizedTags.contains el.tag then
            match el.text with
            | none => none
            | some t =>
              if fs.isDir t then some t
              else if fs.isFile t then some (osPathDirname t)
              else none
          else none)) := by
      unfold get_project_paths
      rw [hp]
      exact project_paths_loop_spec fs proj.children hproj
    unfold get_reports
    simp only []
    rw [hgp]
    simp only []
    obtain ⟨out, hout⟩ := parse_bugs_ok fs _ (root.findall "BugInstance") st hbugs
    rw [hout]
    cases out with
    | mk reps stf => rfl

/-- Witness for C1 (amended): the spec's worked example converts without an
exception. -/
theorem get_reports_ok_of_wf_doc_witness :
    wf_doc docEx = true ∧
    isOkRun (get_reports fsEx (some docEx) initState) = true :=
  ⟨by decide, get_reports_ok_of_wf_doc fsEx docEx initState (by decide)⟩

/-- C2 counterexample: an entry without a long-message child is not
silently dropped — `get_reports` raises `AttributeError` on `docNoLM`. -/
theorem get_reports_raises_on_missing_long_message :
    get_reports fsEx (some docNoLM) initState = .error .attributeError := rfl

/-- C2 (amended): an entry whose long-message child is absent makes
`__parse_bug` raise `AttributeError` (reading `.text` of a missing child),
which propagates out of the conversion, instead of the entry being silently
dropped. -/
theorem parse_bug_error_of_no_long_message (fs : FileSystem)
    (pp : List String) (bug : XElem) (st : ConvState)
    (h : bug.find "LongMessage" = none) :
    parse_bug fs pp bug st = .error .attributeError := by
  unfold parse_bug
  rw [h]

/-- Witness for C2 (amended) at the concrete entry `bugNoLM`. -/
theorem parse_bug_error_of_no_long_message_witness :
    bugNoLM.find "LongMessage" = none ∧
    parse_bug fsEx [] bugNoLM initState = .error .attributeError :=
  ⟨rfl, parse_bug_error_of_no_long_message fsEx [] bugNoLM initState rfl⟩

/-- C3: when the primary SourceLine declares no starting line, the produced
report's line equals the line of the most recent (last in document order)
accumulated nested event with a positive line number, or 0 when no
accumulated event has one.  The accumulated nested events are the report's
trail without its final self-referencing event. -/
theorem report_line_is_last_positive_event_line (fs : FileSystem)
    (pp : List String) (bug : XElem) (st : ConvState) (r : Report)
    (stf : ConvState) (sl : XElem)
    (h : parse_bug fs pp bug st = .ok (some r, stf))
    (hsl : bug.find "SourceLine" = some sl)
    (hstart : sl.attribGet "start" = none) :
    r.line = ((r.bug_path_events.dropLast.reverse.find?
      (fun e => decide (0 < e.line))).map (fun e => e.line)).getD 0 := by
  obtain ⟨lmEl, sl2, sp, st1, events, st2, hlm2, hsl2, hgs, hemp, hce,
    hmsg, hcn, hrh, hcol, hfile, hstf, hevents, hline⟩ :=
    parse_bug_ok_some fs pp bug st r stf h
  rw [hsl] at hsl2
  injection hsl2 with hsl2
  subst hsl2
  have hdl : r.bug_path_events.dropLast = events := by
    rw [hevents, List.dropLast_concat]
  rw [hdl]
  exact hline hstart

/-- Witness for C3 at the concrete entry `bugW3` (nested event at line 7,
no primary starting line): the report's line is 7. -/
theorem report_line_is_last_positive_event_line_witness :
    parse_bug fsEx [] bugW3 initState = .ok (some repW3, stF) ∧
    bugW3.find "SourceLine" = some slNoStart ∧
    slNoStart.attribGet "start" = none ∧
    repW3.line = ((repW3.bug_path_events.dropLast.reverse.find?
      (fun e => decide (0 < e.line))).map (fun e => e.line)).getD 0 :=
  ⟨rfl, rfl, rfl,
    report_line_is_last_positive_event_line fsEx [] bugW3 initState repW3
      stF slNoStart rfl rfl rfl⟩

/-- C4 counterexample: for the concrete entry `bugC4` — no primary starting
line, nested events at lines 50 and then 10 — the produced report's line is
10, the last-walked positive event line, while the greatest positive line
among its accumulated nested events is 50; so the resolved line does not
equal the greatest positive line. -/
theorem report_line_not_greatest_positive :
    okReports (get_reports fsEx (some docC4) initState) = some [repC4] ∧
    repC4.line = 10 ∧
    greatest_positive_line repC4.bug_path_events.dropLast = 50 ∧
    ¬ repC4.line = greatest_positive_line repC4.bug_path_events.dropLast :=
  ⟨rfl, rfl, rfl, by decide⟩

/-- C4 (amended): when the primary location omits a starting line, the
resolved line equals the line of the last accumulated nested event with a
positive line number — not the greatest — else 0. -/
theorem report_line_eq_last_positive_line (fs : FileSystem)
    (pp : List String) (bug : XElem) (st : ConvState) (r : Report)
    (stf : ConvState) (sl : XElem)
    (h : parse_bug fs pp bug st = .ok (some r, stf))
    (hsl : bug.find "SourceLine" = some sl)
    (hstart : sl.attribGet "start" = none) :
    r.line = last_positive_line r.bug_path_events.dropLast := by
  obtain ⟨lmEl, sl2, sp, st1, events, st2, hlm2, hsl2, hgs, hemp, hce,
    hmsg, hcn, hrh, hcol, hfile, hstf, hevents, hline⟩ :=
    parse_bug_ok_some fs pp bug st r stf h
  rw [hsl] at hsl2
  injection hsl2 with hsl2
  subst hsl2
  have hdl : r.bug_path_events.dropLast = events := by
    rw [hevents, List.dropLast_concat]
  rw [hdl, last_positive_line_eq]
  exact hline hstart

/-- Witness for C4 (amended) at the concrete entry `bugC4`: the resolved
line is 10, the last positive event line. -/
theorem report_line_eq_last_positive_line_witness :
    parse_bug fsEx [] bugC4 initState = .ok (some repC4, stF) ∧
    bugC4.find "SourceLine" = some slNoStart ∧
    slNoStart.attribGet "start" = none ∧
    repC4.line = last_positive_line repC4.bug_path_events.dropLast :=
  ⟨rfl, rfl, rfl,
    report_line_eq_last_positive_line fsEx [] bugC4 initState repC4 stF
      slNoStart rfl rfl rfl⟩

/-- C7: a produced report's event trail is exactly the successfully
resolved nested events, as accumulated by the walk over the entry's
children in document order, followed by one final event that duplicates the
report's own message, file, line and column — also when no nested events
were collected. -/
theorem report_trail_events_and_self_last (fs : FileSystem)
    (pp : List String) (bug : XElem) (st : ConvState) (r : Report)
    (stf : ConvState) (sl : XElem) (sp : String) (st1 : ConvState)
    (evs : List BugPathEvent) (st2 : ConvState)
    (h : parse_bug fs pp bug st = .ok (some r, stf))
    (hsl : bug.find "SourceLine" = some sl)
    (hgs : get_source_path fs pp (some sl) st = (some sp, st1))
    (hce : collect_events fs pp bug.children st1 = .ok (evs, st2)) :
    r.bug_path_events.getLast? =
      some ⟨r.message, r.file, r.line, r.column⟩ ∧
    r.bug_path_events = evs ++ [⟨r.message, r.file, r.line, r.column⟩] := by
  obtain ⟨lmEl, sl2, sp2, st1b, events, st2b, hlm2, hsl2, hgs2, hemp, hce2,
    hmsg, hcn, hrh, hcol, hfile, hstf, hevents, hline⟩ :=
    parse_bug_ok_some fs pp bug st r stf h
  rw [hsl] at hsl2
  injection hsl2 with hsl2
  subst hsl2
  rw [hgs] at hgs2
  simp only [Prod.mk.injEq, Option.some.injEq] at hgs2
  obtain ⟨hsp, hst1⟩ := hgs2
  subst hsp
  subst hst1
  rw [hce] at hce2
  simp only [Except.ok.injEq, Prod.mk.injEq] at hce2
  obtain ⟨hevs, hst2⟩ := hce2
  subst hevs
  constructor
  · rw [hevents, List.getLast?_concat]
  · exact hevents

/-- Witness for C7 at the spec's worked example: the trail is the single
nested event followed by the self event. -/
theorem report_trail_events_and_self_last_witness :
    parse_bug fsEx ["/repo/src"] bugEx initState = .ok (some repEx, stEx) ∧
    bugEx.find "SourceLine" = some slEx ∧
    get_source_path fsEx ["/repo/src"] (some slEx) initState =
      (some "/repo/src/pkg/Foo.src", initState) ∧
    collect_events fsEx ["/repo/src"] bugEx.children initState =
      .ok ([ev40], stEx) ∧
    (repEx.bug_path_events.getLast? =
      some ⟨repEx.message, repEx.file, repEx.line, repEx.column⟩ ∧
     repEx.bug_path_events =
       [ev40] ++ [⟨repEx.message, repEx.file, repEx.line, repEx.column⟩]) :=
  ⟨rfl, rfl, rfl, rfl,
    report_trail_events_and_self_last fsEx ["/repo/src"] bugEx initState
      repEx stEx slEx "/repo/src/pkg/Foo.src" initState [ev40] stEx
      rfl rfl rfl rfl⟩

/-- C8: on a successful conversion the number of reports is at most the
number of BugInstance entries, with equality exactly when every entry's
primary source path resolves and every required field — the long-message
child and the primary location — is present. -/
theorem report_count_le_and_eq_iff (fs : FileSystem) (root : XElem)
    (st : ConvState) (reports : List Report) (stf : ConvState)
    (pp : List String)
    (hpp : get_project_paths fs root = .ok pp)
    (h : get_reports fs (some root) st = .ok (reports, stf)) :
    reports.length ≤ (root.findall "BugInstance").length ∧
    (reports.length = (root.findall "BugInstance").length ↔
      (root.findall "BugInstance").all (fun bug =>
        primary_resolves fs pp bug && (bug.find "LongMessage").isSome &&
        (bug.find "SourceLine").isSome) = true) := by
  unfold get_reports at h
  simp only [] at h
  rw [hpp] at h
  simp only [] at h
  obtain ⟨h1, h2, h3⟩ :=
    parse_bugs_spec fs pp (root.findall "BugInstance") st reports stf h
  refine ⟨h1, ?_⟩
  rw [h2]
  simp only [List.all_eq_true] at h3 ⊢
  constructor
  · intro hall bug hbug
    have hres := hall bug hbug
    have hlm := h3 bug hbug
    have hsl := primary_resolves_sl fs pp bug hres
    simp [hres, hlm, hsl]
  · intro hall bug hbug
    have hb := hall bug hbug
    simp only [Bool.and_eq_true] at hb
    exact hb.1.1

/-- Witness for C8 at the spec's worked example: one entry, one report,
equality holds. -/
theorem report_count_le_and_eq_iff_witness :
    get_project_paths fsEx docEx = .ok ["/repo/src"] ∧
    get_reports fsEx (some docEx) initState = .ok ([repEx], stEx) ∧
    ([repEx].length ≤ (docEx.findall "BugInstance").length ∧
     ([repEx].length = (docEx.findall "BugInstance").length ↔
       (docEx.findall "BugInstance").all (fun bug =>
         primary_resolves fsEx ["/repo/src"] bug &&
         (bug.find "LongMessage").isSome &&
         (bug.find "SourceLine").isSome) = true)) :=
  ⟨rfl, rfl,
    report_count_le_and_eq_iff fsEx docEx initState [repEx] stEx
      ["/repo/src"] rfl rfl⟩

/-- C9: the Class-element and Method-element event extractors are
equivalent: on any two elements with the same message text and the same
SourceLine attributes, under the same filesystem, candidate roots and
converter state, they produce structurally identical results. -/
theorem event_from_class_eq_event_from_method (fs : FileSystem)
    (pp : List String) (e1 e2 : XElem) (st : ConvState)
    (hm : (e1.find "Message").map XElem.text =
      (e2.find "Message").map XElem.text)
    (hs : (e1.find "SourceLine").map XElem.attribs =
      (e2.find "SourceLine").map XElem.attribs) :
    event_from_class fs pp e1 st = event_from_method fs pp e2 st := by
  rw [event_method_eq_class]
  unfold event_from_class
  cases hm1 : e1.find "Message" with
  | none =>
    rw [hm1] at hm
    cases hm2 : e2.find "Message" with
    | none => rfl
    | some m2 => rw [hm2] at hm; simp at hm
  | some m1 =>
    rw [hm1] at hm
    cases hm2 : e2.find "Message" with
    | none => rw [hm2] at hm; simp at hm
    | some m2 =>
      rw [hm2] at hm
      have hmt : m1.text = m2.text := by simpa using hm
      simp only []
      cases hs1 : e1.find "SourceLine" with
      | none =>
        rw [hs1] at hs
        cases hs2 : e2.find "SourceLine" with
        | none => rfl
        | some s2 => rw [hs2] at hs; simp at hs
      | some s1 =>
        rw [hs1] at hs
        cases hs2 : e2.find "SourceLine" with
        | none => rw [hs2] at hs; simp at hs
        | some s2 =>
          rw [hs2] at hs
          have hsat : s1.attribs = s2.attribs := by simpa using hs
          have hgs_eq : get_source_path fs pp (some s1) st =
              get_source_path fs pp (some s2) st := by
            unfold get_source_path
            simp only [XElem.attribGet, hsat]
          have hstart_eq : s1.attribGet "start" = s2.attribGet "start" := by
            unfold XElem.attribGet
            rw [hsat]
          simp only []
          rw [hmt, hgs_eq, hstart_eq]

/-- Witness for C9: a Class element and a Method element sharing message
and source line extract to the same event. -/
theorem event_from_class_eq_event_from_method_witness :
    (clsW9.find "Message").map XElem.text =
      (mthW9.find "Message").map XElem.text ∧
    (clsW9.find "SourceLine").map XElem.attribs =
      (mthW9.find "SourceLine").map XElem.attribs ∧
    event_from_class fsEx [] clsW9 initState =
      event_from_method fsEx [] mthW9 initState :=
  ⟨rfl, rfl,
    event_from_class_eq_event_from_method fsEx [] clsW9 mthW9 initState
      rfl rfl⟩

/-- C10: an entry lacking the checker-type attribute and the dedup-hash
attribute, whose parse succeeds and whose primary source path resolves,
still yields a report — with checker identifier `None` and hash `None` —
rather than being dropped. -/
theorem report_without_checker_and_hash (fs : FileSystem)
    (pp : List String) (bug : XElem) (st : ConvState) (rep : Option Report)
    (stf : ConvState)
    (ht : bug.attribGet "type" = none)
    (hh : bug.attribGet "instanceHash" = none)
    (hres : primary_resolves fs pp bug = true)
    (h : parse_bug fs pp bug st = .ok (rep, stf)) :
    rep.map Report.checker_name = some none ∧
    rep.map Report.report_hash = some none := by
  have hsome := parse_bug_isSome fs pp bug st rep stf h
  rw [hres] at hsome
  cases rep with
  | none => simp at hsome
  | some r =>
    obtain ⟨lmEl, sl2, sp, st1, events, st2, hlm2, hsl2, hgs, hemp, hce,
      hmsg, hcn, hrh, hcol, hfile, hstf, hevents, hline⟩ :=
      parse_bug_ok_some fs pp bug st r stf h
    rw [ht] at hcn
    rw [hh] at hrh
    simp [hcn, hrh]

/-- Witness for C10 at the concrete entry `bugW3`, which has no attributes
at all but a resolvable primary path. -/
theorem report_without_checker_and_hash_witness :
    bugW3.attribGet "type" = none ∧
    bugW3.attribGet "instanceHash" = none ∧
    primary_resolves fsEx [] bugW3 = true ∧
    parse_bug fsEx [] bugW3 initState = .ok (some repW3, stF) ∧
    ((some repW3).map Report.checker_name = some none ∧
     (some repW3).map Report.report_hash = some none) :=
  ⟨rfl, rfl, rfl, rfl,
    report_without_checker_and_hash fsEx [] bugW3 initState (some repW3)
      stF rfl rfl rfl rfl⟩

end Spotbugs